import Mathlib

/-!
# Verification of the hex_api dwell-time / flow-anomaly analysis engine

Shallow embedding of the analysis core of the repository:

* `src/core/services/ECDFService.py` — censored dwell sampler and ECDF
  (`_sql_pairs`, `get_durations`, `get_ecdf`);
* `src/core/analyzer/pcb_held.py` — hiding-pattern analyzer and batch
  clustering (`analyze_production_hiding_patterns`,
  `detect_batch_hiding_patterns`, `merge_batch_detections`, ...);
* `src/core/analyzer/ecpv3.py` and
  `src/core/analyzer/expected_packing_v2.py` — hourly cycle-time tables
  and the percentile helper (`compute_hourly_ct_table`,
  `build_hourly_cycle_time_table`, `calculate_historical_cycle_times`,
  `_safe_percentile`);
* `src/core/analyzer/expected_packing.py` — flow-gap analysis
  (`calculate_station_flow_analysis`, `count_station_completions`).

Timestamps of the form `YYYY-MM-DD HH:MM:SS` are embedded as natural
numbers of seconds (the SQL layer and the Python code compare and
subtract them chronologically; the lexicographic order on the strings
agrees with the numeric order on seconds).  Fractional quantities are
embedded as rationals.  Records whose timestamps fail to parse are
skipped by the source before any computation, so records are embedded
already-parsed, with missing values as `Option.none`.
-/

namespace HexApi

/-- Python's `round` (banker's rounding, round-half-to-even) on a
rational, to an integer.  Used wherever the source calls
`round(x, k)` on an exact value. -/
def pyRound (x : ℚ) : ℤ :=
  let f := Int.floor x
  if x - f = 1/2 then (if f % 2 = 0 then f else f + 1) else round x

/-- Python's `round(x, 2)` on a rational. -/
def pyRound2 (x : ℚ) : ℚ := (pyRound (x * 100) : ℚ) / 100

/-- SQLite `CAST(ROUND(minutes) AS INT)` applied to a nonnegative number
of seconds divided by 60: round-half-away-from-zero, which for a
nonnegative argument is `⌊(s + 30) / 60⌋`. -/
def dwellOfSeconds (s : ℤ) : ℤ := (s + 30) / 60

/-! ## ECDFService: records and the censored dwell sampler

Embedding of `ECDFService._sql_pairs` / `ECDFService.get_durations`
(`src/core/services/ECDFService.py`).  A row of `records_table` carries
`ppid`, `group_name`, `line_name`, `error_flag` and
`collected_timestamp`. -/

/-- One row of `records_table`. -/
structure Rec where
  ppid : String
  group_name : String
  line_name : String
  error_flag : Bool
  ts : ℕ
deriving DecidableEq, Repr

/-- `STATIONS` from `ECDFService.py`. -/
def STATIONS : List String :=
  ["PTH_INPUT", "TOUCH_INSPECT", "TOUCH_UP", "ICT",
   "FT1", "FINAL_VI", "FINAL_INSPECT", "PACKING"]

/-- `FLOW_GROUPS = STATIONS` from `ECDFService.py`. -/
def FLOW_GROUPS : List String := STATIONS

/-- `REPAIR_GROUPS` from `ECDFService.py`. -/
def REPAIR_GROUPS : List String := ["TUP_REPAIR", "ICT_REPAIR", "FT_REPAIR"]

/-- CTE `from_ev`: earliest non-error timestamp of `ppid` at
`stage_from` on the line (`MIN(collected_timestamp) ... GROUP BY ppid`). -/
def t_from_ev (events : List Rec) (stage_from line p : String) : Option ℕ :=
  ((events.filter (fun r =>
    r.ppid = p ∧ r.group_name = stage_from ∧ r.line_name = line ∧
      r.error_flag = false)).map Rec.ts).min?

/-- CTE `to_ev`: earliest non-error timestamp of `ppid` at `stage_to`
strictly after `t_from` (`r.collected_timestamp > f.t_from`). -/
def t_to_ev (events : List Rec) (stage_to line p : String) (tf : ℕ) : Option ℕ :=
  ((events.filter (fun r =>
    r.ppid = p ∧ r.group_name = stage_to ∧ r.line_name = line ∧
      r.error_flag = false ∧ tf < r.ts)).map Rec.ts).min?

/-- One output row of the pair query: `{ppid, t_from, t_to, dwell_min}`. -/
structure Row where
  ppid : String
  t_from : ℕ
  t_to : ℕ
  dwell_min : ℤ
deriving DecidableEq, Repr

deriving instance DecidableEq for Except

/-- CTE `pairs` joined with the final SELECT of `_sql_pairs`: one row per
`ppid` having both a `t_from` and a `t_to`, with
`dwell_min = CAST(ROUND((julianday(t_to)-julianday(t_from))*1440) AS INT)`. -/
def sql_pairs (events : List Rec) (stage_from stage_to line : String) : List Row :=
  ((events.map Rec.ppid).dedup).filterMap (fun p =>
    match t_from_ev events stage_from line p with
    | none => none
    | some tf =>
      match t_to_ev events stage_to line p tf with
      | none => none
      | some tt => some ⟨p, tf, tt, dwellOfSeconds ((tt : ℤ) - tf)⟩)

/-- CTE `ppids_with_errors`: the unit has an error-flagged event at a
`FLOW_GROUPS` stage with `collected_timestamp BETWEEN t_from AND t_to`
(SQL `BETWEEN` is inclusive at both ends). -/
def has_flow_error (events : List Rec) (line : String) (row : Row) : Bool :=
  events.any (fun r =>
    r.ppid = row.ppid ∧ r.group_name ∈ FLOW_GROUPS ∧ r.line_name = line ∧
      r.error_flag = true ∧ row.t_from ≤ r.ts ∧ r.ts ≤ row.t_to)

/-- CTE `ppids_with_repairs`: the unit has an event at a `REPAIR_GROUPS`
stage (any error flag) with timestamp `BETWEEN t_from AND t_to`. -/
def has_repair (events : List Rec) (line : String) (row : Row) : Bool :=
  events.any (fun r =>
    r.ppid = row.ppid ∧ r.group_name ∈ REPAIR_GROUPS ∧ r.line_name = line ∧
      row.t_from ≤ r.ts ∧ r.ts ≤ row.t_to)

/-- The window clauses of `get_durations`: with anchor `start`/`both`
the optional bounds constrain `t_from`; with `end`/`both` they
constrain `t_to`. -/
def window_keep (anchor : String) (start_dt end_dt : Option ℕ) (row : Row) : Bool :=
  (if anchor = "start" ∨ anchor = "both" then
    start_dt.all (fun s => decide (s ≤ row.t_from)) &&
      end_dt.all (fun e => decide (row.t_from ≤ e))
   else true) &&
  (if anchor = "end" ∨ anchor = "both" then
    start_dt.all (fun s => decide (s ≤ row.t_to)) &&
      end_dt.all (fun e => decide (row.t_to ≤ e))
   else true)

/-- The cap clause of `get_durations`:
`(julianday(t_to) - julianday(t_from)) * 1440 BETWEEN 0 AND cap_minutes`,
a test on the exact (unrounded) dwell in minutes, equivalent over the
seconds embedding to `0 ≤ t_to - t_from ∧ t_to - t_from ≤ 60 * cap`. -/
def cap_keep (cap_minutes : Option ℤ) (row : Row) : Bool :=
  match cap_minutes with
  | none => true
  | some c => 0 ≤ (row.t_to : ℤ) - row.t_from ∧ (row.t_to : ℤ) - row.t_from ≤ 60 * c

/-- `ECDFService.get_durations`.  Faithful to the source's control flow:
`_sql_pairs` validates the stage names and raises first; then the
`anchor` value is validated; then the SQL is built.  When
`censor_flow_errors` is true the SQL is rebuilt with the
`ppids_with_errors` exclusion, and when `censor_repairs` is true the
SQL is rebuilt once more with *only* the `ppids_with_repairs`
exclusion — the repairs branch overwrites (does not extend) the
error-censored query, so with both flags set only repair censoring is
applied.  Window and cap clauses are re-appended in every branch.
The final `ORDER BY dwell_min DESC` is dropped here: every theorem
below is stated up to membership or on single-row outputs. -/
def get_durations (events : List Rec) (line : String)
    (stage_from stage_to : String) (start_dt end_dt : Option ℕ)
    (anchor : String) (cap_minutes : Option ℤ)
    (censor_flow_errors censor_repairs : Bool) : Except String (List Row) :=
  if ¬ (stage_from ∈ STATIONS ∧ stage_to ∈ STATIONS) then
    .error "stage_from/to deben pertenecer a STATIONS"
  else if ¬ (anchor = "start" ∨ anchor = "end" ∨ anchor = "both") then
    .error "anchor debe ser 'start'|'end'|'both'"
  else
    let base := sql_pairs events stage_from stage_to line
    let censored :=
      if censor_repairs then
        base.filter (fun row => ¬ has_repair events line row)
      else if censor_flow_errors then
        base.filter (fun row => ¬ has_flow_error events line row)
      else base
    .ok (censored.filter (fun row =>
      window_keep anchor start_dt end_dt row && cap_keep cap_minutes row))

/-! ## ECDFService: ECDF grid and point evaluations

Embedding of the grid/evaluation core of `ECDFService.get_ecdf`
(lines 337–356 of `ECDFService.py`).  `bisect.bisect_right` over the
sorted sample counts the elements `≤ t`, which is `List.countP`
independently of sortedness. -/

/-- `F(t)` of `get_ecdf` / `ecdf_sample`:
`bisect.bisect_right(durations, t) / n`, i.e. the fraction of sample
values `≤ t`. -/
def ecdf_F (xs : List ℤ) (t : ℤ) : ℚ :=
  (xs.countP (fun x => decide (x ≤ t)) : ℚ) / xs.length

/-- `list(range(0, grid_max + 1, grid_step))` for `grid_step ≥ 1`:
the multiples of `grid_step` up to `grid_max`. -/
def ecdf_grid (grid_max grid_step : ℕ) : List ℕ :=
  (List.range (grid_max / grid_step + 1)).map (· * grid_step)

/-- The grid construction of `get_ecdf` on a non-empty duration sample:
`grid_max` defaults to the sample maximum, is clamped to `≥ 0`, and
`grid_step` is clamped to `≥ 1`; the result is the pair
`(t_grid, F_vals)`. -/
def get_ecdf_core (durations : List ℤ) (grid_step : ℕ) (grid_max : Option ℤ) :
    List ℕ × List ℚ :=
  let dmax : ℤ := (durations.max?).getD 0
  let gm : ℕ := (max 0 (grid_max.getD dmax)).toNat
  let st : ℕ := max 1 grid_step
  let t_grid := ecdf_grid gm st
  (t_grid, t_grid.map (fun t : ℕ => ecdf_F durations (t : ℤ)))

/-! ## `_safe_percentile`

Embedding of `_safe_percentile` as it appears (identically) in
`src/core/analyzer/expected_packing_v2.py` and
`src/core/analyzer/ecpv3.py`.  `int(pos)` truncates toward zero; for
`q ∈ [0,1]` and `n ≥ 2` the position `(n-1)*q` is nonnegative, so it
is the floor.  Out-of-range indexing (unreachable for `q ∈ [0,1]`) is
embedded with a default of `0`. -/

/-- `_safe_percentile(sorted_values, q)`. -/
def safe_percentile (sorted_values : List ℚ) (q : ℚ) : Option ℚ :=
  match sorted_values with
  | [] => none
  | [x] => some x
  | xs =>
    let n := xs.length
    let pos : ℚ := (n - 1 : ℤ) * q
    let lower : ℤ := Int.floor pos
    let upper : ℤ := min (lower + 1) ((n : ℤ) - 1)
    let frac : ℚ := pos - lower
    some ((xs.getD lower.toNat 0) * (1 - frac) + (xs.getD upper.toNat 0) * frac)

/-- The specification's description of the same function: "linear
interpolation between the two closest ranks at position `(n-1)*q`",
the two closest ranks being `⌊pos⌋` and `⌈pos⌉`. -/
def percentileSpec (sorted_values : List ℚ) (q : ℚ) : ℚ :=
  let n := sorted_values.length
  let pos : ℚ := (n - 1 : ℤ) * q
  let lo := sorted_values.getD (Int.floor pos).toNat 0
  let hi := sorted_values.getD (Int.ceil pos).toNat 0
  lo + (pos - Int.floor pos) * (hi - lo)

/-! ## pcb_held: hiding-pattern analyzer and batch clustering

Embedding of `src/core/analyzer/pcb_held.py`.  A raw row carries
`ppid`, `final_inspect_ts`, `packing_ts` and `diff_seconds`; timestamps
are seconds, so the calendar-hour key `'%Y-%m-%d %H'` of a timestamp
`t` is `t / 3600` and Python dict iteration order (insertion order =
first occurrence) is modeled by `firstKeys`. -/

/-- The keys of a Python dict built by grouping, in insertion order:
first occurrence of each key, duplicates dropped. -/
def firstKeys {κ : Type} [DecidableEq κ] : List κ → List κ
  | [] => []
  | k :: ks => k :: (firstKeys ks).filter (fun k2 => k2 ≠ k)

/-- One row of the raw query feeding `analyze_production_hiding_patterns`. -/
structure RawRecord where
  ppid : String
  final_inspect_ts : ℕ
  packing_ts : ℕ
  diff_seconds : ℤ
deriving DecidableEq, Repr

/-- The `pcb_analysis` dict built for every record: timestamps pass
through unchanged; `delay_minutes`/`delay_hours` are
`round(diff_seconds/60, 2)` / `round(diff_seconds/3600, 2)`.
The `status` key is represented by which output list the entry is on,
and the presentation-only `severity` key is not modeled. -/
structure PcbAnalysis where
  ppid : String
  final_inspect_time : ℕ
  packing_time : ℕ
  delay_seconds : ℤ
  delay_minutes : ℚ
  delay_hours : ℚ
deriving DecidableEq, Repr

/-- Build the `pcb_analysis` entry of one record. -/
def mkPcbAnalysis (r : RawRecord) : PcbAnalysis :=
  ⟨r.ppid, r.final_inspect_ts, r.packing_ts, r.diff_seconds,
   pyRound2 ((r.diff_seconds : ℚ) / 60), pyRound2 ((r.diff_seconds : ℚ) / 3600)⟩

/-- The classification loop of `analyze_production_hiding_patterns`:
a record is SUSPICIOUS iff `diff_seconds > threshold_seconds`
(strictly), NORMAL otherwise; both lists keep input order. -/
def classify_pcbs (threshold_seconds : ℤ) :
    List RawRecord → List PcbAnalysis × List PcbAnalysis
  | [] => ([], [])
  | r :: rs =>
    let rest := classify_pcbs threshold_seconds rs
    if threshold_seconds < r.diff_seconds then (mkPcbAnalysis r :: rest.1, rest.2)
    else (rest.1, mkPcbAnalysis r :: rest.2)

/-- Stable insertion into a list sorted by `key` (ties keep the
incoming element first, as Python's stable `sorted`). -/
def insert_by (key : PcbAnalysis → ℕ) (x : PcbAnalysis) :
    List PcbAnalysis → List PcbAnalysis
  | [] => [x]
  | y :: ys => if key x ≤ key y then x :: y :: ys else y :: insert_by key x ys

/-- Python's stable `sorted(pcbs, key=...)`. -/
def sort_by (key : PcbAnalysis → ℕ) : List PcbAnalysis → List PcbAnalysis
  | [] => []
  | x :: xs => insert_by key x (sort_by key xs)

/-- The greedy clustering loop shared by `detect_packing_time_clusters`
and the 30-minute sub-clustering of `detect_inspection_time_clusters`:
walk the sorted list, extend the current cluster while the gap from the
last kept element is at most `gap` seconds, otherwise close the cluster
(kept only when its size is at least `min_batch_size`) and start a new
one; the accumulator holds the current cluster in reverse. -/
def greedy_go (key : PcbAnalysis → ℕ) (gap min_size : ℕ) :
    List PcbAnalysis → List PcbAnalysis → List (List PcbAnalysis)
  | [], cur => if min_size ≤ cur.length then [cur.reverse] else []
  | x :: xs, [] => greedy_go key gap min_size xs [x]
  | x :: xs, lastx :: cur =>
    if key x - key lastx ≤ gap then greedy_go key gap min_size xs (x :: lastx :: cur)
    else if min_size ≤ (lastx :: cur).length then
      (lastx :: cur).reverse :: greedy_go key gap min_size xs [x]
    else greedy_go key gap min_size xs [x]

/-- `detect_packing_time_clusters(suspicious_pcbs, time_window_minutes,
min_batch_size)`. -/
def detect_packing_time_clusters (pcbs : List PcbAnalysis)
    (time_window_minutes min_batch_size : ℕ) : List (List PcbAnalysis) :=
  greedy_go (fun p => p.packing_time) (time_window_minutes * 60) min_batch_size
    (sort_by (fun p => p.packing_time) pcbs) []

/-- `detect_inspection_time_clusters(suspicious_pcbs, min_batch_size)`:
group by calendar hour of the inspection time (insertion order), and
within each group of size at least `min_batch_size` sub-cluster with
30-minute (1800 s) gaps. -/
def detect_inspection_time_clusters (pcbs : List PcbAnalysis)
    (min_batch_size : ℕ) : List (List PcbAnalysis) :=
  ((firstKeys (pcbs.map (fun p => p.final_inspect_time / 3600))).map (fun k =>
    let grp := pcbs.filter (fun p => p.final_inspect_time / 3600 = k)
    if min_batch_size ≤ grp.length then
      greedy_go (fun p => p.final_inspect_time) 1800 min_batch_size
        (sort_by (fun p => p.final_inspect_time) grp) []
    else [])).flatten

/-- `int(delay_minutes // 30) * 30`: Python `//` is floor division, so
the bucket is `⌊delay_minutes / 30⌋ * 30`; computed on the numerator
and denominator so that it evaluates by kernel reduction
(`delay_bucket_eq_floor` below proves the two forms equal). -/
def delay_bucket (dm : ℚ) : ℤ := dm.num / ((dm.den : ℤ) * 30) * 30

/-- `analyze_combined_patterns(suspicious_pcbs, min_batch_size)`:
group by the pair (30-minute delay bucket, packing calendar hour) in
insertion order; each group of size at least `min_batch_size` is a
cluster. -/
def analyze_combined_patterns (pcbs : List PcbAnalysis)
    (min_batch_size : ℕ) : List (List PcbAnalysis) :=
  let keyOf := fun p : PcbAnalysis => (delay_bucket p.delay_minutes, p.packing_time / 3600)
  ((firstKeys (pcbs.map keyOf)).map (fun k =>
    let grp := pcbs.filter (fun p => keyOf p = k)
    if min_batch_size ≤ grp.length then [grp] else [])).flatten

/-- `{pcb['ppid'] for pcb in cluster}`: the ppid set of a cluster
(modeled as its list of distinct ppids in first-occurrence order). -/
def cluster_ppids (c : List PcbAnalysis) : List String :=
  firstKeys (c.map (fun p => p.ppid))

/-- The first loop of `merge_batch_detections`: a packing cluster is
accepted only when its ppid set does not intersect the already-claimed
set at all; accepted clusters claim their ppids. -/
def merge_packing :
    List (List PcbAnalysis) → List (List PcbAnalysis) × List String →
    List (List PcbAnalysis) × List String
  | [], st => st
  | c :: cs, (bs, claimed) =>
    let ids := cluster_ppids c
    if ids.all (fun p => decide (p ∉ claimed)) then
      merge_packing cs (bs ++ [c], claimed ++ ids)
    else
      merge_packing cs (bs, claimed)

/-- The second and third loops of `merge_batch_detections`: a cluster
passes the overlap `test` (comparing the overlap size with the ppid-set
size), is re-filtered to members with unclaimed ppids, and the
re-filtered cluster is kept only when its size is at least the literal
`3` written in the source (`if len(new_cluster) >= 3`). -/
def merge_filtered (test : ℕ → ℕ → Bool) :
    List (List PcbAnalysis) → List (List PcbAnalysis) × List String →
    List (List PcbAnalysis) × List String
  | [], st => st
  | c :: cs, (bs, claimed) =>
    let ids := cluster_ppids c
    let overlap := ids.filter (fun p => decide (p ∈ claimed))
    if test overlap.length ids.length then
      let nc := c.filter (fun p => decide (p.ppid ∉ claimed))
      if 3 ≤ nc.length then
        merge_filtered test cs (bs ++ [nc], claimed ++ cluster_ppids nc)
      else merge_filtered test cs (bs, claimed)
    else merge_filtered test cs (bs, claimed)

/-- `merge_batch_detections(packing_clusters, inspection_clusters,
combined_patterns)`: packing clusters first (claiming their ids), then
inspection clusters with `len(overlap) < len(ppids) * 0.5`, then
delay-bucket clusters with `len(overlap) < len(ppids) * 0.3`. -/
def merge_batch_detections
    (packing_clusters inspection_clusters combined_patterns :
      List (List PcbAnalysis)) : List (List PcbAnalysis) :=
  (merge_filtered (fun o n => 10 * o < 3 * n) combined_patterns
    (merge_filtered (fun o n => 2 * o < n) inspection_clusters
      (merge_packing packing_clusters ([], [])))).1

/-- Result shape of `detect_batch_hiding_patterns`: either the early
"Not enough suspicious PCBs" return, or the full result carrying the
merged batches (the per-batch enhanced statistics derived from them
are presentation fields and are not modeled). -/
inductive DetectResult
  | tooFew
  | batches (bs : List (List PcbAnalysis))
deriving DecidableEq, Repr

/-- `detect_batch_hiding_patterns(suspicious_pcbs, time_window_minutes,
min_batch_size)`.  The only guard is `len(suspicious_pcbs) <
min_batch_size`; the function performs no validation of
`min_batch_size` itself. -/
def detect_batch_hiding_patterns (pcbs : List PcbAnalysis)
    (time_window_minutes min_batch_size : ℕ) : DetectResult :=
  if pcbs.length < min_batch_size then .tooFew
  else .batches (merge_batch_detections
    (detect_packing_time_clusters pcbs time_window_minutes min_batch_size)
    (detect_inspection_time_clusters pcbs min_batch_size)
    (analyze_combined_patterns pcbs min_batch_size))

/-- The `statistics` dict of `analyze_production_hiding_patterns`
(computed only on non-empty input). -/
structure AnalyzeStats where
  total_pcbs : ℕ
  suspicious_count : ℕ
  normal_count : ℕ
  suspicious_percentage : ℚ
  avg_delay_minutes : ℚ
  max_delay_hours : ℚ
  min_delay_seconds : ℤ
  threshold_minutes : ℤ
deriving DecidableEq, Repr

/-- The report dict of `analyze_production_hiding_patterns` on
non-empty input.  `analysis_timestamp` is
`datetime.now().strftime('%Y-%m-%d %H:%M:%S')` — the system clock read
is made an explicit parameter `now` of the embedding.  The
presentation-only parts of `detected_patterns` (severity breakdown,
most common hours) and the `recommendations` strings are not modeled;
the batch detection they are derived from is. -/
structure AnalyzeReport where
  line_name : String
  analysis_timestamp : String
  statistics : AnalyzeStats
  suspicious_pcbs : List PcbAnalysis
  normal_pcbs : List PcbAnalysis
  batch_patterns : DetectResult
deriving DecidableEq, Repr

/-- Output of `analyze_production_hiding_patterns`: the early
"No data found" dict (which carries no timestamp) or the full report. -/
inductive AnalyzeOutput
  | noData (line_name : String)
  | report (r : AnalyzeReport)
deriving DecidableEq, Repr

/-- `analyze_production_hiding_patterns(raw_data, line_name,
threshold_minutes)` with the `datetime.now()` read as explicit `now`.
Statistics follow lines 62–72 of `pcb_held.py`; the batch patterns are
`detect_batch_hiding_patterns(suspicious, 5, 3)` (the defaults used by
`detect_hiding_patterns`). -/
def analyze_production_hiding_patterns (raw_data : List RawRecord)
    (line_name : String) (threshold_minutes : ℤ) (now : String) : AnalyzeOutput :=
  match raw_data with
  | [] => .noData line_name
  | r0 :: rest =>
    let raw := r0 :: rest
    let pair := classify_pcbs (threshold_minutes * 60) raw
    let suspicious := pair.1
    let normal := pair.2
    let all_delays : List ℤ := raw.map (fun r => r.diff_seconds)
    let stats : AnalyzeStats :=
      { total_pcbs := raw.length
        suspicious_count := suspicious.length
        normal_count := normal.length
        suspicious_percentage :=
          pyRound2 ((suspicious.length : ℚ) / raw.length * 100)
        avg_delay_minutes :=
          pyRound2 ((all_delays.sum : ℚ) / all_delays.length / 60)
        max_delay_hours :=
          pyRound2 ((((all_delays.max?).getD 0 : ℤ) : ℚ) / 3600)
        min_delay_seconds := (all_delays.min?).getD 0
        threshold_minutes := threshold_minutes }
    .report
      { line_name := line_name
        analysis_timestamp := now
        statistics := stats
        suspicious_pcbs := suspicious
        normal_pcbs := normal
        batch_patterns := detect_batch_hiding_patterns suspicious 5 3 }

/-! ## Cycle-time tables

Embedding of the per-bucket aggregation of
`ecpv3.compute_hourly_ct_table` (inclusive cap `0 < diff <=
max_cycle_seconds`), of the per-hour per-pair loop of
`expected_packing_v2.build_hourly_cycle_time_table` (strict cap `0 <
diff < max_cycle_seconds`), and of the per-pair sample collection of
`expected_packing_v2.calculate_historical_cycle_times` (strict cap
`0 < cycle_seconds < 3600`).  A pivoted record maps station names to
optional timestamps (an association list; unparsable or missing
values are `none`). -/

/-- A pivoted process-flow record: station name → completion time. -/
def PivotRec : Type := List (String × ℕ)

/-- `record.get(station)` composed with timestamp parsing. -/
def getStation (r : PivotRec) (s : String) : Option ℕ :=
  (r.find? (fun kv => kv.1 = s)).map (fun kv => kv.2)

/-- The per-(pair, date, hour) aggregation cell of
`compute_hourly_ct_table`: folding the record loop for a fixed
adjacent pair `(a, b)` and a fixed bucket (`date_key = t / 86400`,
`hour_key = t % 86400 / 3600` of the upstream completion), producing
`(upstream_events, downstream_present, cycle sample)`.  The upstream
event is counted whenever stage `a` has a timestamp in the bucket; the
delta joins the sample and `downstream_present` only when stage `b` is
present and `0 < diff ∧ diff ≤ max_cycle_seconds` (inclusive cap). -/
def compute_hourly_ct_bucket (data : List PivotRec) (a b : String)
    (max_cycle_seconds : ℕ) (date_key hour_key : ℕ) : ℕ × ℕ × List ℤ :=
  data.foldl (fun acc rec =>
    match getStation rec a with
    | none => acc
    | some ta =>
      if ta / 86400 = date_key ∧ ta % 86400 / 3600 = hour_key then
        match getStation rec b with
        | none => (acc.1 + 1, acc.2.1, acc.2.2)
        | some tb =>
          let diff : ℤ := (tb : ℤ) - (ta : ℤ)
          if 0 < diff ∧ diff ≤ (max_cycle_seconds : ℤ) then
            (acc.1 + 1, acc.2.1 + 1, acc.2.2 ++ [diff])
          else (acc.1 + 1, acc.2.1, acc.2.2)
      else acc) (0, 0, [])

/-- The per-(hour, pair) loop of `build_hourly_cycle_time_table`
(lines 543–564 of `expected_packing_v2.py`): records whose upstream
completion satisfies `hour_start <= from_dt < hour_end` count as
`upstream_events`; the delta joins `cycles` and `downstream_present`
only under the *strict* cap `0 < diff < max_cycle_seconds`. -/
def build_hourly_pair_bucket (data : List PivotRec) (a b : String)
    (max_cycle_seconds : ℕ) (hour_start hour_end : ℕ) : ℕ × ℕ × List ℤ :=
  data.foldl (fun acc rec =>
    match getStation rec a with
    | none => acc
    | some ta =>
      if hour_start ≤ ta ∧ ta < hour_end then
        match getStation rec b with
        | none => (acc.1 + 1, acc.2.1, acc.2.2)
        | some tb =>
          let diff : ℤ := (tb : ℤ) - (ta : ℤ)
          if 0 < diff ∧ diff < (max_cycle_seconds : ℤ) then
            (acc.1 + 1, acc.2.1 + 1, acc.2.2 ++ [diff])
          else (acc.1 + 1, acc.2.1, acc.2.2)
      else acc) (0, 0, [])

/-- The hour window of `build_hourly_cycle_time_table`: hour `h < 23`
spans `[h:00:00, (h+1):00:00)`, hour 23 spans `[23:00:00, 23:59:59)`. -/
def build_hourly_window (day h : ℕ) : ℕ × ℕ :=
  (day * 86400 + h * 3600,
   if h < 23 then day * 86400 + (h + 1) * 3600 else day * 86400 + 86399)

/-- The per-pair sample collection of
`calculate_historical_cycle_times`: all deltas with
`0 < cycle_seconds < 3600` (strict, hard-coded cap), in record order. -/
def calculate_historical_cycle_pair (data : List PivotRec) (a b : String) : List ℤ :=
  data.filterMap (fun rec =>
    match getStation rec a, getStation rec b with
    | some ta, some tb =>
      let diff : ℤ := (tb : ℤ) - (ta : ℤ)
      if 0 < diff ∧ diff < 3600 then some diff else none
    | _, _ => none)

/-! ## Flow-gap analysis

Embedding of `expected_packing.count_station_completions` and
`expected_packing.calculate_station_flow_analysis`. -/

/-- The station list hard-coded in `calculate_station_flow_analysis`. -/
def FLOW_STATIONS : List String :=
  ["PTH_INPUT", "TOUCH_INSPECT", "TOUCH_UP", "ICT", "FT", "FINAL_VI",
   "FINAL_INSPECT", "PACKING"]

/-- `count_station_completions(data, station, start_time, end_time)`:
records with a parsable timestamp at `station` in `[start, end)`. -/
def count_station_completions (data : List PivotRec) (station : String)
    (start_time end_time : ℕ) : ℕ :=
  data.countP (fun rec =>
    match getStation rec station with
    | some t => decide (start_time ≤ t ∧ t < end_time)
    | none => false)

/-- One entry of the `flow_analysis` dict. -/
structure FlowEntry where
  current_station : String
  next_station : String
  current_station_completions : ℕ
  next_station_completions : ℕ
  held_units_count : ℤ
  flow_efficiency : ℚ
deriving DecidableEq, Repr

/-- The per-pair body of `calculate_station_flow_analysis`:
`held = max(0, current - next)`;
`flow_efficiency = round(next/current*100 if current > 0 else 0, 2)`. -/
def flow_pair_entry (data : List PivotRec) (start_time end_time : ℕ)
    (cur nxt : String) : FlowEntry :=
  let c := count_station_completions data cur start_time end_time
  let n := count_station_completions data nxt start_time end_time
  { current_station := cur
    next_station := nxt
    current_station_completions := c
    next_station_completions := n
    held_units_count := max 0 ((c : ℤ) - (n : ℤ))
    flow_efficiency :=
      pyRound2 (if 0 < c then (n : ℚ) / (c : ℚ) * 100 else 0) }

/-- The `flow_analysis` part of `calculate_station_flow_analysis`: one
entry per adjacent pair of the hard-coded station list. -/
def calculate_station_flow_analysis (data : List PivotRec)
    (start_time end_time : ℕ) : List FlowEntry :=
  (FLOW_STATIONS.zip FLOW_STATIONS.tail).map (fun ab =>
    flow_pair_entry data start_time end_time ab.1 ab.2)

/-! ## empirical.py: `PackingECDF._sql_durations_censored`

The sibling censored-duration query of `src/empirical.py` (fixed
stage pair PTH_INPUT→PACKING, day-range filter on `t_in`): unlike
`ECDFService.get_durations`, it excludes units on *both* censor sets
simultaneously (`LEFT JOIN` on errors and repairs with
`e.ppid IS NULL AND r.ppid IS NULL`). -/

/-- CTE `pth`: earliest non-error PTH_INPUT timestamp whose calendar
day lies in `[d_from, d_to]` (days embedded as `ts / 86400`). -/
def pth_t_in (events : List Rec) (line : String) (d_from d_to : ℕ)
    (p : String) : Option ℕ :=
  ((events.filter (fun r =>
    r.ppid = p ∧ r.group_name = "PTH_INPUT" ∧ r.line_name = line ∧
      r.error_flag = false ∧ d_from ≤ r.ts / 86400 ∧ r.ts / 86400 ≤ d_to)).map
    Rec.ts).min?

/-- CTE `pack`: earliest non-error PACKING timestamp strictly after
`t_in`. -/
def pack_t_out (events : List Rec) (line : String) (p : String) (tin : ℕ) :
    Option ℕ :=
  ((events.filter (fun r =>
    r.ppid = p ∧ r.group_name = "PACKING" ∧ r.line_name = line ∧
      r.error_flag = false ∧ tin < r.ts)).map Rec.ts).min?

/-- The final SELECT of `_sql_durations_censored`: one row per unit
with both timestamps, excluded when it has a flow error *or* a repair
event in `[t_in, t_out]`, kept under the cap `0 ≤ minutes ≤
cap_minutes` on the exact dwell. -/
def packing_ecdf_durations (events : List Rec) (line : String)
    (d_from d_to : ℕ) (cap_minutes : ℤ) : List Row :=
  (firstKeys (events.map Rec.ppid)).filterMap (fun p =>
    match pth_t_in events line d_from d_to p with
    | none => none
    | some tin =>
      match pack_t_out events line p tin with
      | none => none
      | some tout =>
        let row : Row := ⟨p, tin, tout, dwellOfSeconds ((tout : ℤ) - tin)⟩
        if ¬ has_flow_error events line row ∧ ¬ has_repair events line row ∧
            0 ≤ (tout : ℤ) - tin ∧ (tout : ℤ) - tin ≤ 60 * cap_minutes then
          some row
        else none)

/-- Batch ppid containment: every member of every accepted batch has
its ppid on the claimed list. -/
def ids_sub (bs : List (List PcbAnalysis)) (claimed : List String) : Prop :=
  ∀ b ∈ bs, ∀ p ∈ b, p.ppid ∈ claimed

/-- Two batches share no member unit ID. -/
def batch_disjoint (b1 b2 : List PcbAnalysis) : Prop :=
  ∀ p1 ∈ b1, ∀ p2 ∈ b2, p1.ppid ≠ p2.ppid

/-! ## Projections and concrete instances used by the theorems -/

/-- The `analysis_timestamp` field of an analyzer output, when present. -/
def analysis_timestamp_of : AnalyzeOutput → Option String
  | .noData _ => none
  | .report r => some r.analysis_timestamp

/-- An analyzer output with its `analysis_timestamp` field blanked. -/
def erase_timestamp : AnalyzeOutput → AnalyzeOutput
  | .noData l => .noData l
  | .report r => .report { r with analysis_timestamp := "" }

/-- Events for one unit U1: FINAL_INSPECT at 10:00:00 (36000 s),
PACKING at 10:05:00 (36300 s), and an error-flagged event at the
flow-chain stage ICT at 10:02:00 (36120 s). -/
def evC1 : List Rec :=
  [⟨"U1", "FINAL_INSPECT", "J01", false, 36000⟩,
   ⟨"U1", "PACKING", "J01", false, 36300⟩,
   ⟨"U1", "ICT", "J01", true, 36120⟩]

/-- The same scenario as `evC1` for the PTH_INPUT→PACKING pair of
`PackingECDF`: error-flagged ICT event between t_in and t_out. -/
def evC1p : List Rec :=
  [⟨"U1", "PTH_INPUT", "J01", false, 36000⟩,
   ⟨"U1", "PACKING", "J01", false, 36300⟩,
   ⟨"U1", "ICT", "J01", true, 36120⟩]

/-- `evC1p` without the error event. -/
def evC1q : List Rec :=
  [⟨"U1", "PTH_INPUT", "J01", false, 36000⟩,
   ⟨"U1", "PACKING", "J01", false, 36300⟩]

/-- Events for one unit V1 with a 20-second FINAL_INSPECT→PACKING
dwell (rounds to 0 minutes). -/
def evC6 : List Rec :=
  [⟨"V1", "FINAL_INSPECT", "J01", false, 100⟩,
   ⟨"V1", "PACKING", "J01", false, 120⟩]

/-- A pivoted record whose FINAL_INSPECT→PACKING delta is exactly
3600 seconds. -/
def rC7 : PivotRec := [("FINAL_INSPECT", 0), ("PACKING", 3600)]

/-- A pivoted record with a 100-second A→B delta. -/
def rC7w : PivotRec := [("A", 100), ("B", 200)]

/-- Suspicious units for the C5 scenario: A1–A4 are packed one minute
apart (a packing-proximity cluster of size 4); A1, B1, B2, B3 are all
inspected within hour 8 at 5-minute gaps (an inspection-proximity
cluster of size 4 whose overlap with the claimed set is 25%). -/
def pA1 : PcbAnalysis := ⟨"A1", 28800, 36000, 7200, 120, 2⟩

def pA2 : PcbAnalysis := ⟨"A2", 25200, 36060, 9000, 150, 2⟩

def pA3 : PcbAnalysis := ⟨"A3", 25260, 36120, 10800, 180, 3⟩

def pA4 : PcbAnalysis := ⟨"A4", 25320, 36180, 12600, 210, 3⟩

def pB1 : PcbAnalysis := ⟨"B1", 29100, 43200, 3600, 60, 1⟩

def pB2 : PcbAnalysis := ⟨"B2", 29400, 45000, 3660, 61, 1⟩

def pB3 : PcbAnalysis := ⟨"B3", 29700, 46800, 3720, 62, 1⟩

/-- The seven suspicious units of the C5 scenario. -/
def pcbsC5 : List PcbAnalysis := [pA1, pA2, pA3, pA4, pB1, pB2, pB3]

/-- A single suspicious unit. -/
def pC3 : PcbAnalysis := ⟨"P1", 3600, 7200, 3600, 60, 1⟩

/-- One raw record with a 10-minute inspection→packing delay. -/
def rC2 : RawRecord := ⟨"P1", 36000, 36600, 600⟩

/-- A raw record whose delay equals the 3-minute threshold exactly. -/
def rC10 : RawRecord := ⟨"P2", 36000, 36180, 180⟩

/-- A snapshot with 100 FINAL_INSPECT completions and 80 PACKING
completions inside the window `[0, 1000)`. -/
def dataC9 : List PivotRec :=
  ((List.range 100).map (fun i => [("FINAL_INSPECT", i)])) ++
    ((List.range 80).map (fun i => [("PACKING", i)]))

/-! ## C1 -/

/-- C1: with `censor_flow_errors=True` the claim says unit U1 — whose
error-flagged ICT event at 10:02:00 lies strictly between its
t_from=10:00:00 and t_to=10:05:00 — is excluded regardless of
`censor_repairs`.  The code disagrees: when `censor_repairs=True` as
well, `get_durations` rebuilds the SQL with only the repair censor and
the error censor is discarded, so U1 is returned (first conjunct, the
bug).  With `censor_repairs=False` the error censor works and U1 is
excluded (second conjunct), and with `censor_flow_errors=False` U1
yields a 5-minute dwell pair (third conjunct), as the claim states.
The sibling implementation `PackingECDF._sql_durations_censored`
(`src/empirical.py`), which the claim also cites, applies both censors
simultaneously and does exclude the unit (fourth conjunct), including
it only when the error event is absent (fifth conjunct) — so the
claim reflects the intent and the `get_durations` overwrite is the
slip. -/
theorem c1_flow_error_censor_overwritten :
    get_durations evC1 "J01" "FINAL_INSPECT" "PACKING" none none "start"
      (some 1440) true true = .ok [⟨"U1", 36000, 36300, 5⟩] ∧
    get_durations evC1 "J01" "FINAL_INSPECT" "PACKING" none none "start"
      (some 1440) true false = .ok [] ∧
    get_durations evC1 "J01" "FINAL_INSPECT" "PACKING" none none "start"
      (some 1440) false false = .ok [⟨"U1", 36000, 36300, 5⟩] ∧
    packing_ecdf_durations evC1p "J01" 0 0 1440 = [] ∧
    packing_ecdf_durations evC1q "J01" 0 0 1440 = [⟨"U1", 36000, 36300, 5⟩] :=
  ⟨by decide, by decide, by decide, by decide, by decide⟩

/-! ## C2 -/

/-- C2: the claim that no component's result depends on a hidden clock
is false: `analyze_production_hiding_patterns` stamps
`datetime.now()` into its `analysis_timestamp` output field, so two
runs on the identical snapshot with identical parameters but at
different clock instants produce different outputs. -/
theorem c2_counterexample_hidden_clock :
    analyze_production_hiding_patterns [rC2] "J01" 3 "2025-08-15 10:00:00" ≠
      analyze_production_hiding_patterns [rC2] "J01" 3 "2025-08-15 10:00:01" := by
  intro h
  have h2 := congrArg analysis_timestamp_of h
  have e1 : analysis_timestamp_of
      (analyze_production_hiding_patterns [rC2] "J01" 3 "2025-08-15 10:00:00") =
      some "2025-08-15 10:00:00" := rfl
  have e2 : analysis_timestamp_of
      (analyze_production_hiding_patterns [rC2] "J01" 3 "2025-08-15 10:00:01") =
      some "2025-08-15 10:00:01" := rfl
  rw [e1, e2] at h2
  exact absurd h2 (by decide)

/-- C2 (amended): apart from the `analysis_timestamp` field — the one
place where the system clock enters — the analyzer's output is a
deterministic function of the snapshot and parameters: blanking that
field makes the outputs of any two runs equal whatever the two clock
readings were. -/
theorem c2_deterministic_modulo_timestamp
    (raw : List RawRecord) (line : String) (thr : ℤ) (now1 now2 : String) :
    erase_timestamp (analyze_production_hiding_patterns raw line thr now1) =
      erase_timestamp (analyze_production_hiding_patterns raw line thr now2) := by
  cases raw with
  | nil => rfl
  | cons r rs => rfl

/-! ## C3 -/

/-- C3: the claim also requires `detect_batch_hiding_patterns` to
reject `min_batch_size <= 0` with a descriptive error before any
computation starts.  It does not: with `min_batch_size = 0` and one
suspicious unit the function runs to completion and even reports a
batch of size 1 — there is no validation of `min_batch_size` anywhere
in the function. -/
theorem c3_counterexample_min_batch_size_not_validated :
    detect_batch_hiding_patterns [pC3] 5 0 = .batches [[pC3]] := by decide

/-- C3 (amended): `get_durations` does fail fast with a descriptive
error and no partial result — on a stage name outside the configured
`STATIONS` chain (raised by `_sql_pairs` before anything else), and on
an `anchor` outside {start, end, both} (checked before the query runs);
the resulting error does not depend on the event data at all.
`min_batch_size`, however, is not validated (see the counterexample). -/
theorem c3_parameter_validation
    (events : List Rec) (line sf st : String) (sd ed : Option ℕ)
    (anchor : String) (cap : Option ℤ) (cf cr : Bool) :
    (¬ (sf ∈ STATIONS ∧ st ∈ STATIONS) →
      get_durations events line sf st sd ed anchor cap cf cr =
        .error "stage_from/to deben pertenecer a STATIONS") ∧
    (sf ∈ STATIONS → st ∈ STATIONS →
      ¬ (anchor = "start" ∨ anchor = "end" ∨ anchor = "both") →
      get_durations events line sf st sd ed anchor cap cf cr =
        .error "anchor debe ser 'start'|'end'|'both'") := by
  constructor
  · intro h
    rw [get_durations, if_pos h]
  · intro h1 h2 h3
    rw [get_durations, if_neg (not_not_intro ⟨h1, h2⟩), if_pos h3]

/-- C3 witness: an invalid anchor is rejected with the descriptive
error, on empty event data, via `c3_parameter_validation`. -/
theorem c3_parameter_validation_witness :
    get_durations [] "J01" "FINAL_INSPECT" "PACKING" none none "middle"
      (some 1440) true true = .error "anchor debe ser 'start'|'end'|'both'" :=
  (c3_parameter_validation [] "J01" "FINAL_INSPECT" "PACKING" none none
    "middle" (some 1440) true true).2 (by decide) (by decide) (by decide)

/-! ## C10 -/

/-- C10: the hiding-pattern analyzer classifies a record SUSPICIOUS iff
its delay is strictly greater than `threshold_minutes * 60` seconds
(the suspicious list is exactly the filter of the raw list by that
strict comparison, the normal list its complement — so a delay equal
to the threshold is NORMAL), every record lands in exactly one list
(the lengths add up to the input length and the two filters are
complementary per record), and the report of
`analyze_production_hiding_patterns` carries exactly these two lists. -/
theorem c10_suspicious_strict_threshold (raw : List RawRecord) (thr : ℤ) :
    (classify_pcbs (thr * 60) raw).1 =
      (raw.filter (fun r => decide (thr * 60 < r.diff_seconds))).map mkPcbAnalysis ∧
    (classify_pcbs (thr * 60) raw).2 =
      (raw.filter (fun r => decide (¬ thr * 60 < r.diff_seconds))).map mkPcbAnalysis ∧
    (classify_pcbs (thr * 60) raw).1.length + (classify_pcbs (thr * 60) raw).2.length =
      raw.length ∧
    (∀ r ∈ raw,
      (thr * 60 < r.diff_seconds ∧ mkPcbAnalysis r ∈ (classify_pcbs (thr * 60) raw).1) ∨
      (¬ thr * 60 < r.diff_seconds ∧ mkPcbAnalysis r ∈ (classify_pcbs (thr * 60) raw).2)) ∧
    (∀ line now rp, analyze_production_hiding_patterns raw line thr now = .report rp →
      rp.suspicious_pcbs = (classify_pcbs (thr * 60) raw).1 ∧
      rp.normal_pcbs = (classify_pcbs (thr * 60) raw).2) := by
  refine ⟨?_, ?_, ?_, ?_, ?_⟩
  · induction raw with
    | nil => rfl
    | cons r rs ih =>
      by_cases h : thr * 60 < r.diff_seconds <;>
        simp [classify_pcbs, List.filter_cons, h, ih]
  · induction raw with
    | nil => rfl
    | cons r rs ih =>
      by_cases h : thr * 60 < r.diff_seconds
      · simp [classify_pcbs, List.filter_cons, h, ih]
      · have h2 : r.diff_seconds ≤ thr * 60 := not_lt.mp h
        simp [classify_pcbs, List.filter_cons, h, h2, ih, not_lt]
  · induction raw with
    | nil => rfl
    | cons r rs ih =>
      by_cases h : thr * 60 < r.diff_seconds <;>
        simp [classify_pcbs, h] <;> omega
  · induction raw with
    | nil => simp
    | cons r rs ih =>
      intro r2 hr2
      rcases List.mem_cons.mp hr2 with rfl | hmem
      · by_cases h : thr * 60 < r2.diff_seconds
        · exact Or.inl ⟨h, by simp [classify_pcbs, h]⟩
        · exact Or.inr ⟨h, by simp [classify_pcbs, h]⟩
      · rcases ih r2 hmem with ⟨h, hin⟩ | ⟨h, hin⟩
        · refine Or.inl ⟨h, ?_⟩
          by_cases hr : thr * 60 < r.diff_seconds <;> simp [classify_pcbs, hr, hin]
        · refine Or.inr ⟨h, ?_⟩
          by_cases hr : thr * 60 < r.diff_seconds <;> simp [classify_pcbs, hr, hin]
  · intro line now rp hrp
    cases raw with
    | nil => exact absurd hrp (by simp [analyze_production_hiding_patterns])
    | cons r rs =>
      rw [analyze_production_hiding_patterns] at hrp
      cases hrp
      exact ⟨rfl, rfl⟩

/-- C10 witness: a record whose delay equals the threshold exactly
(180 s at 3 minutes) is classified NORMAL, via
`c10_suspicious_strict_threshold`. -/
theorem c10_suspicious_strict_threshold_witness :
    rC10 ∈ [rC10] ∧
      ((3 * 60 < rC10.diff_seconds ∧
        mkPcbAnalysis rC10 ∈ (classify_pcbs (3 * 60) [rC10]).1) ∨
       (¬ 3 * 60 < rC10.diff_seconds ∧
        mkPcbAnalysis rC10 ∈ (classify_pcbs (3 * 60) [rC10]).2)) :=
  ⟨by decide, (c10_suspicious_strict_threshold [rC10] 3).2.2.2.1 rC10 (by decide)⟩

/-! ## C4 -/

/-- `F` is monotone: counting values `≤ t` grows with `t`. -/
theorem ecdf_F_mono (xs : List ℤ) {t u : ℤ} (h : t ≤ u) :
    ecdf_F xs t ≤ ecdf_F xs u := by
  cases xs with
  | nil => simp [ecdf_F]
  | cons a l =>
    have hlen : (0 : ℚ) < ((a :: l).length : ℚ) := by
      exact_mod_cast Nat.succ_pos l.length
    rw [ecdf_F, ecdf_F, div_le_div_iff_of_pos_right hlen]
    have := List.countP_mono_left
      (l := a :: l) (p := fun x => decide (x ≤ t)) (q := fun x => decide (x ≤ u))
      (fun x _ hx => by
        simp only [decide_eq_true_eq] at hx ⊢
        omega)
    exact_mod_cast this

/-- `F(t) = 1` as soon as `t` dominates the whole (non-empty) sample. -/
theorem ecdf_F_eq_one (xs : List ℤ) (hne : xs ≠ []) (t : ℤ)
    (h : ∀ x ∈ xs, x ≤ t) : ecdf_F xs t = 1 := by
  rw [ecdf_F, List.countP_eq_length.mpr (fun a ha => decide_eq_true (h a ha))]
  exact div_self (by exact_mod_cast fun h0 => hne (List.length_eq_zero.mp h0))

/-- `F(t) = 0` when `t` lies strictly below the whole sample. -/
theorem ecdf_F_eq_zero (xs : List ℤ) (t : ℤ)
    (h : ∀ x ∈ xs, t < x) : ecdf_F xs t = 0 := by
  rw [ecdf_F, List.countP_eq_zero.mpr (fun a ha => by
    simp only [decide_eq_true_eq]
    exact not_le.mpr (h a ha))]
  simp

/-- C4 (amended): for every non-empty duration sample the ECDF of
`get_ecdf` is non-decreasing along its grid and bounded in `[0, 1]`;
`F(t) = 1.0` for every evaluation point `t` at or above the sample
maximum and `F(t) = 0.0` strictly below the sample minimum; and `F` at
the last grid point equals `1.0` *whenever that grid point is at or
above the sample maximum* — which the claim's unconditional
`F(grid.last) = 1.0` wrongly takes for granted (the default
`grid_max = max(sample)` is rounded down to a multiple of
`grid_step`; see the counterexample). -/
theorem c4_ecdf_invariants (xs : List ℤ) (hne : xs ≠ [])
    (grid_step : ℕ) (grid_max : Option ℤ) :
    List.Pairwise (· ≤ ·) (get_ecdf_core xs grid_step grid_max).2 ∧
    (∀ f ∈ (get_ecdf_core xs grid_step grid_max).2, 0 ≤ f ∧ f ≤ 1) ∧
    (∀ t : ℤ, (∀ x ∈ xs, x ≤ t) → ecdf_F xs t = 1) ∧
    (∀ t : ℤ, (∀ x ∈ xs, t < x) → ecdf_F xs t = 0) ∧
    (∀ tl : ℕ, (get_ecdf_core xs grid_step grid_max).1.getLast? = some tl →
      (∀ x ∈ xs, x ≤ (tl : ℤ)) →
      (get_ecdf_core xs grid_step grid_max).2.getLast? = some 1) := by
  refine ⟨?_, ?_, fun t ht => ecdf_F_eq_one xs hne t ht,
    fun t ht => ecdf_F_eq_zero xs t ht, ?_⟩
  · have hgrid : List.Pairwise (· ≤ ·) (ecdf_grid
        ((max 0 (grid_max.getD ((xs.max?).getD 0))).toNat) (max 1 grid_step)) :=
      (List.pairwise_lt_range _).map _
        (fun a b hab => Nat.mul_le_mul_right _ (Nat.le_of_lt hab))
    exact hgrid.map (fun t : ℕ => ecdf_F xs (t : ℤ))
      (fun a b hab => ecdf_F_mono xs (by exact_mod_cast hab))
  · intro f hf
    simp only [get_ecdf_core, List.mem_map] at hf
    obtain ⟨t, _, rfl⟩ := hf
    constructor
    · exact div_nonneg (by positivity) (by positivity)
    · apply div_le_one_of_le₀
      · exact_mod_cast List.countP_le_length _
      · positivity
  · intro tl hlast hle
    have h2 : (get_ecdf_core xs grid_step grid_max).2 =
        ((get_ecdf_core xs grid_step grid_max).1).map
          (fun t : ℕ => ecdf_F xs (t : ℤ)) := rfl
    rw [h2, List.getLast?_map, hlast, Option.map_some']
    rw [ecdf_F_eq_one xs hne (tl : ℤ) hle]

/-- C4 witness: on the sample `[3, 7]` the evaluation point `7` (the
sample maximum) has `F = 1`, via `c4_ecdf_invariants`. -/
theorem c4_ecdf_invariants_witness : ecdf_F [3, 7] 7 = 1 :=
  (c4_ecdf_invariants [3, 7] (by decide) 2 none).2.2.1 7 (by decide)

/-- C4 counterexample: for the non-empty sample `[15]` with the default
`grid_max` (= sample max) and `grid_step = 10`, the grid of `get_ecdf`
is `[0, 10]` and `F` along it is `[0, 0]`: `F` at the last grid point
is `0`, not `1.0` as the claim states. -/
theorem c4_counterexample_last_grid_point :
    get_ecdf_core [15] 10 none = ([0, 10], [0, 0]) ∧ (0 : ℚ) ≠ 1 := by
  constructor
  · simp [get_ecdf_core, ecdf_grid, ecdf_F]
    norm_num [List.range_succ]
  · norm_num

/-! ## C6 -/

/-- Every pair row is built from a `t_to` strictly after `t_from`
(the `to_ev` CTE requires `collected_timestamp > t_from`), with
`dwell_min` the rounded minute count. -/
theorem mem_sql_pairs_fields (events : List Rec) (sf st line : String)
    (r : Row) (hr : r ∈ sql_pairs events sf st line) :
    r.t_from < r.t_to ∧ r.dwell_min = dwellOfSeconds ((r.t_to : ℤ) - r.t_from) := by
  simp only [sql_pairs, List.mem_filterMap] at hr
  obtain ⟨p, _, hp⟩ := hr
  rcases h1 : t_from_ev events sf line p with _ | tf
  · rw [h1] at hp
    simp at hp
  · rw [h1] at hp
    dsimp only at hp
    rcases h2 : t_to_ev events st line p tf with _ | tt
    · rw [h2] at hp
      simp at hp
    · rw [h2] at hp
      simp only [Option.some.injEq] at hp
      subst hp
      refine ⟨?_, rfl⟩
      rw [t_to_ev] at h2
      have hmem := List.min?_mem (fun a b : ℕ => min_choice a b) h2
      simp only [List.mem_map, List.mem_filter] at hmem
      obtain ⟨rec, ⟨_, hcond⟩, hts⟩ := hmem
      simp only [decide_eq_true_eq] at hcond
      simpa [hts] using hcond.2.2.2.2

/-- Rows returned by `get_durations` come from the pair query and pass
the window and cap clauses. -/
theorem get_durations_ok_mem (events : List Rec) (line sf st : String)
    (sd ed : Option ℕ) (anchor : String) (cap : Option ℤ) (cf cr : Bool)
    (rows : List Row)
    (h : get_durations events line sf st sd ed anchor cap cf cr = .ok rows)
    (r : Row) (hr : r ∈ rows) :
    r ∈ sql_pairs events sf st line ∧
      window_keep anchor sd ed r = true ∧ cap_keep cap r = true := by
  simp only [get_durations] at h
  split at h
  · exact absurd h (by simp)
  · split at h
    · exact absurd h (by simp)
    · simp only [Except.ok.injEq] at h
      subst h
      obtain ⟨hmem, hcond⟩ := List.mem_filter.mp hr
      have hwc := hcond
      rw [Bool.and_eq_true] at hwc
      refine ⟨?_, hwc.1, hwc.2⟩
      split at hmem
      · exact (List.mem_filter.mp hmem).1
      · split at hmem
        · exact (List.mem_filter.mp hmem).1
        · exact hmem

/-- C6 (amended): the cap filter of the censored dwell query tests the
*exact* (unrounded) dwell, not the rounded `dwell_min` the claim
speaks of: a returned pair always has `t_from < t_to` (so the exact
dwell is strictly positive — zero or negative dwells are excluded by
construction) and exact dwell at most `cap_minutes` (boundary
included); the `cap_keep` clause holds exactly on
`0 ≤ t_to - t_from ≤ 60·cap` seconds, so an exact dwell of exactly
`cap_minutes` is included, while a pair whose *rounded* `dwell_min`
is 0 (exact dwell under 30 s) is *not* excluded (see the
counterexample). -/
theorem c6_cap_filter_exact_dwell (events : List Rec) (line sf st : String)
    (sd ed : Option ℕ) (anchor : String) (cap : ℤ) (cf cr : Bool)
    (rows : List Row)
    (h : get_durations events line sf st sd ed anchor (some cap) cf cr = .ok rows) :
    (∀ r ∈ rows, r.t_from < r.t_to ∧
      (r.t_to : ℤ) - r.t_from ≤ 60 * cap ∧
      r.dwell_min = ((r.t_to : ℤ) - r.t_from + 30) / 60) ∧
    (∀ r : Row, cap_keep (some cap) r = true ↔
      0 ≤ (r.t_to : ℤ) - r.t_from ∧ (r.t_to : ℤ) - r.t_from ≤ 60 * cap) := by
  constructor
  · intro r hr
    obtain ⟨hbase, _, hcap⟩ := get_durations_ok_mem events line sf st sd ed
      anchor (some cap) cf cr rows h r hr
    obtain ⟨hlt, hdwell⟩ := mem_sql_pairs_fields events sf st line r hbase
    refine ⟨hlt, ?_, hdwell⟩
    simp only [cap_keep, decide_eq_true_eq] at hcap
    exact hcap.2
  · intro r
    simp [cap_keep]

/-- C6 witness: on `evC6`'s single returned row (t_from 100 s,
t_to 120 s, cap 1440 min), `c6_cap_filter_exact_dwell` yields
`t_from < t_to`, the cap bound on the exact dwell, and the rounded
`dwell_min = 0`. -/
theorem c6_cap_filter_exact_dwell_witness :
    (100 : ℕ) < 120 ∧ ((120 : ℤ) - 100 ≤ 60 * 1440) ∧
      (0 : ℤ) = ((120 : ℤ) - 100 + 30) / 60 :=
  (c6_cap_filter_exact_dwell evC6 "J01" "FINAL_INSPECT" "PACKING" none none
    "start" 1440 true true [⟨"V1", 100, 120, 0⟩] (by decide)).1
    ⟨"V1", 100, 120, 0⟩ (by decide)

/-- C6 counterexample: unit V1 moves FINAL_INSPECT→PACKING in 20
seconds; its rounded `dwell_min` is 0, yet the pair is returned by the
censored dwell query — contradicting the claim that a dwell of 0 is
always excluded (the filter `0 <= exact minutes <= cap` looks at the
unrounded value). -/
theorem c6_counterexample_zero_dwell_included :
    get_durations evC6 "J01" "FINAL_INSPECT" "PACKING" none none "start"
      (some 1440) true true = .ok [⟨"V1", 100, 120, 0⟩] := by decide

/-! ## C7 -/

/-- C7 (amended): appending one record whose upstream stage `a`
completes inside the bucket shows exactly when its transition delta is
recorded.  In `ecpv3.compute_hourly_ct_table` the delta joins the
sample and `downstream_present` iff `0 < delta ≤ max_cycle_seconds`
(boundary *included*), while in
`expected_packing_v2.build_hourly_cycle_time_table` the test is
`0 < delta < max_cycle_seconds` and in
`calculate_historical_cycle_times` it is `0 < delta < 3600` (boundary
*excluded*); in every case — non-positive, over-cap, or at the
excluded boundary — the upstream event still increments
`upstream_events` (the first component) by one. -/
theorem c7_cycle_cap_boundaries (data : List PivotRec) (a b : String)
    (mx d h hs he : ℕ) (rec : PivotRec) (ta tb : ℕ)
    (hta : getStation rec a = some ta) (htb : getStation rec b = some tb) :
    (ta / 86400 = d → ta % 86400 / 3600 = h →
      compute_hourly_ct_bucket (data ++ [rec]) a b mx d h =
        (if 0 < (tb : ℤ) - (ta : ℤ) ∧ (tb : ℤ) - (ta : ℤ) ≤ (mx : ℤ) then
          ((compute_hourly_ct_bucket data a b mx d h).1 + 1,
           (compute_hourly_ct_bucket data a b mx d h).2.1 + 1,
           (compute_hourly_ct_bucket data a b mx d h).2.2 ++ [(tb : ℤ) - (ta : ℤ)])
        else
          ((compute_hourly_ct_bucket data a b mx d h).1 + 1,
           (compute_hourly_ct_bucket data a b mx d h).2.1,
           (compute_hourly_ct_bucket data a b mx d h).2.2))) ∧
    (hs ≤ ta → ta < he →
      build_hourly_pair_bucket (data ++ [rec]) a b mx hs he =
        (if 0 < (tb : ℤ) - (ta : ℤ) ∧ (tb : ℤ) - (ta : ℤ) < (mx : ℤ) then
          ((build_hourly_pair_bucket data a b mx hs he).1 + 1,
           (build_hourly_pair_bucket data a b mx hs he).2.1 + 1,
           (build_hourly_pair_bucket data a b mx hs he).2.2 ++ [(tb : ℤ) - (ta : ℤ)])
        else
          ((build_hourly_pair_bucket data a b mx hs he).1 + 1,
           (build_hourly_pair_bucket data a b mx hs he).2.1,
           (build_hourly_pair_bucket data a b mx hs he).2.2))) ∧
    (calculate_historical_cycle_pair (data ++ [rec]) a b =
      calculate_historical_cycle_pair data a b ++
        (if 0 < (tb : ℤ) - (ta : ℤ) ∧ (tb : ℤ) - (ta : ℤ) < 3600 then
          [(tb : ℤ) - (ta : ℤ)] else [])) := by
  refine ⟨?_, ?_, ?_⟩
  · intro h1 h2
    simp only [compute_hourly_ct_bucket, List.foldl_append, List.foldl_cons,
      List.foldl_nil, hta, htb]
    rw [if_pos ⟨h1, h2⟩]
  · intro h1 h2
    simp only [build_hourly_pair_bucket, List.foldl_append, List.foldl_cons,
      List.foldl_nil, hta, htb]
    rw [if_pos ⟨h1, h2⟩]
  · simp only [calculate_historical_cycle_pair, List.filterMap_append,
      List.filterMap_cons, List.filterMap_nil, hta, htb]
    by_cases hc : 0 < (tb : ℤ) - (ta : ℤ) ∧ (tb : ℤ) - (ta : ℤ) < 3600
    · rw [if_pos hc]
      have hc2 : ta < tb ∧ (tb : ℤ) - (ta : ℤ) < 3600 := by omega
      simp [hc2]
    · rw [if_neg hc]
      simp
      omega

/-- C7 witness: one record with a 100-second A→B delta in the first
hour bucket, via `c7_cycle_cap_boundaries` at empty previous data. -/
theorem c7_cycle_cap_boundaries_witness :
    compute_hourly_ct_bucket [rC7w] "A" "B" 3600 0 0 = (1, 1, [100]) := by
  have h := (c7_cycle_cap_boundaries [] "A" "B" 3600 0 0 0 3600 rC7w 100 200
    (by decide) (by decide)).1 (by decide) (by decide)
  rw [if_pos (by decide : (0 : ℤ) < (200 : ℕ) - (100 : ℕ) ∧
    ((200 : ℕ) : ℤ) - ((100 : ℕ) : ℤ) ≤ ((3600 : ℕ) : ℤ))] at h
  simpa using h

/-- C7 counterexample: a FINAL_INSPECT→PACKING delta of exactly
`max_cycle_seconds = 3600` s.  The claim says the delta is included in
the sample and `downstream_present`; `build_hourly_cycle_time_table`
excludes it (downstream_present 0, empty sample — only
`upstream_events` is counted), as does
`calculate_historical_cycle_times`; only `compute_hourly_ct_table`
includes it. -/
theorem c7_counterexample_boundary_delta :
    build_hourly_pair_bucket [rC7] "FINAL_INSPECT" "PACKING" 3600 0 3600 =
      (1, 0, []) ∧
    calculate_historical_cycle_pair [rC7] "FINAL_INSPECT" "PACKING" = [] ∧
    compute_hourly_ct_bucket [rC7] "FINAL_INSPECT" "PACKING" 3600 0 0 =
      (1, 1, [3600]) :=
  ⟨by decide, by decide, by decide⟩

/-! ## C8 -/

/-- C8: `_safe_percentile` returns `null` on the empty sample, the
single value on a sample of size 1, and otherwise the linear
interpolation between the two closest ranks (floor and ceiling) at
position `(n-1)*q` — and on `[10, 20, 30, 40]` it yields `p25 = 17.5`,
`median = 25` and `p90 = 37.0`. -/
theorem c8_safe_percentile_interpolation :
    (∀ q : ℚ, safe_percentile [] q = none) ∧
    (∀ x q : ℚ, safe_percentile [x] q = some x) ∧
    (∀ (xs : List ℚ) (q : ℚ), 2 ≤ xs.length → 0 ≤ q → q ≤ 1 →
      safe_percentile xs q = some (percentileSpec xs q)) ∧
    safe_percentile [10, 20, 30, 40] (1/4) = some (35/2) ∧
    safe_percentile [10, 20, 30, 40] (1/2) = some 25 ∧
    safe_percentile [10, 20, 30, 40] (9/10) = some 37 := by
  refine ⟨fun q => rfl, fun x q => rfl, ?_, ?_, ?_, ?_⟩
  · intro xs q hn hq0 hq1
    rcases xs with _ | ⟨a, _ | ⟨b, t⟩⟩
    · simp at hn
    · simp at hn
    · simp only [safe_percentile, percentileSpec, Option.some.injEq]
      set m : ℕ := (a :: b :: t).length with hm
      set pos : ℚ := ((m : ℤ) - 1 : ℤ) * q with hpos
      have hm2 : 2 ≤ m := hn
      have hpos0 : 0 ≤ pos := by
        rw [hpos]
        apply mul_nonneg _ hq0
        push_cast
        have : (2 : ℚ) ≤ (m : ℚ) := by exact_mod_cast hm2
        linarith
      have hposle : pos ≤ (m : ℚ) - 1 := by
        rw [hpos]
        push_cast
        nlinarith [hq0, hq1, show (2 : ℚ) ≤ (m : ℚ) from by exact_mod_cast hm2]
      by_cases hfr : pos = (⌊pos⌋ : ℚ)
      · rw [← hfr]
        ring
      · have hlt : (⌊pos⌋ : ℚ) < pos :=
          lt_of_le_of_ne (Int.floor_le pos) (fun h => hfr h.symm)
        have hposlt : pos < (m : ℚ) - 1 := by
          rcases lt_or_eq_of_le hposle with h | h
          · exact h
          · exfalso
            apply hfr
            have : pos = (((m : ℤ) - 1 : ℤ) : ℚ) := by push_cast; linarith
            rw [this, Int.floor_intCast]
        have hfloorlt : ⌊pos⌋ < (m : ℤ) - 1 := by
          apply Int.floor_lt.mpr
          push_cast
          linarith
        have hmin : min (⌊pos⌋ + 1) ((m : ℤ) - 1) = ⌊pos⌋ + 1 :=
          min_eq_left (by omega)
        have hceil : ⌈pos⌉ = ⌊pos⌋ + 1 := by
          rw [Int.ceil_eq_iff]
          constructor
          · push_cast
            linarith
          · push_cast
            linarith [Int.lt_floor_add_one pos]
        rw [hmin, hceil]
        ring
  · simp [safe_percentile]
    norm_num [Int.fract]
  · simp [safe_percentile]
    norm_num [Int.fract, show Int.toNat 2 = 2 from rfl, show Int.toNat 3 = 3 from rfl]
  · simp [safe_percentile]
    norm_num [Int.fract, show Int.toNat 2 = 2 from rfl, show Int.toNat 3 = 3 from rfl]

/-- C8 witness: the interpolation branch applied to the two-point
sample `[1, 3]` at `q = 1/2`, via `c8_safe_percentile_interpolation`. -/
theorem c8_safe_percentile_interpolation_witness :
    safe_percentile [1, 3] (1/2) = some (percentileSpec [1, 3] (1/2)) :=
  c8_safe_percentile_interpolation.2.2.1 [1, 3] (1/2) (by decide)
    (by norm_num) (by norm_num)

/-! ## C9 -/

set_option maxRecDepth 4000 in
/-- C9: every entry of the flow-gap analysis carries the completion
counts of its two stations over `[start, end)`, with
`held_units_count = max(0, current - next)` and
`flow_efficiency = round(next/current*100, 2)` — defined as `0` when
`current = 0` (no division by zero); in particular 100 upstream and 80
downstream completions give `held = 20` and `efficiency = 80.0`. -/
theorem c9_flow_gap_held_and_efficiency (data : List PivotRec) (ts te : ℕ) :
    (∀ e ∈ calculate_station_flow_analysis data ts te,
      e.current_station_completions =
        count_station_completions data e.current_station ts te ∧
      e.next_station_completions =
        count_station_completions data e.next_station ts te ∧
      e.held_units_count = max 0 ((e.current_station_completions : ℤ) -
        (e.next_station_completions : ℤ)) ∧
      e.flow_efficiency = pyRound2 (if 0 < e.current_station_completions then
        (e.next_station_completions : ℚ) / (e.current_station_completions : ℚ) * 100
        else 0)) ∧
    (flow_pair_entry dataC9 0 1000 "FINAL_INSPECT" "PACKING").held_units_count = 20 ∧
    (flow_pair_entry dataC9 0 1000 "FINAL_INSPECT" "PACKING").flow_efficiency = 80 ∧
    (flow_pair_entry [] 0 1000 "FINAL_INSPECT" "PACKING").flow_efficiency = 0 := by
  have h1 : count_station_completions dataC9 "FINAL_INSPECT" 0 1000 = 100 := by decide
  have h2 : count_station_completions dataC9 "PACKING" 0 1000 = 80 := by decide
  refine ⟨?_, ?_, ?_, ?_⟩
  · intro e he
    simp only [calculate_station_flow_analysis, List.mem_map] at he
    obtain ⟨ab, _, rfl⟩ := he
    exact ⟨rfl, rfl, rfl, rfl⟩
  · simp [flow_pair_entry, h1, h2]
  · simp only [flow_pair_entry, h1, h2]
    norm_num [pyRound2, pyRound]
  · simp only [flow_pair_entry, count_station_completions]
    norm_num [pyRound2, pyRound]

/-- C9 witness: the PTH_INPUT→TOUCH_INSPECT entry on the empty
snapshot satisfies the held-count equation, via
`c9_flow_gap_held_and_efficiency`. -/
theorem c9_flow_gap_held_and_efficiency_witness :
    (flow_pair_entry [] 0 10 "PTH_INPUT" "TOUCH_INSPECT").held_units_count =
      max 0 (((flow_pair_entry [] 0 10 "PTH_INPUT" "TOUCH_INSPECT").current_station_completions : ℤ) -
        ((flow_pair_entry [] 0 10 "PTH_INPUT" "TOUCH_INSPECT").next_station_completions : ℤ)) :=
  ((c9_flow_gap_held_and_efficiency [] 0 10).1
    (flow_pair_entry [] 0 10 "PTH_INPUT" "TOUCH_INSPECT")
    (List.mem_map.mpr ⟨("PTH_INPUT", "TOUCH_INSPECT"), by decide, rfl⟩)).2.2.1

/-! ## C5 -/

/-- `delay_bucket` is the floor form `int(delay_minutes // 30) * 30`
written in the source. -/
theorem delay_bucket_eq_floor (dm : ℚ) : delay_bucket dm = ⌊dm / 30⌋ * 30 := by
  have h2 : ((dm.den * 30 : ℕ) : ℚ) = (dm.den : ℚ) * 30 := by push_cast; ring
  have h1 : dm / 30 = (dm.num : ℚ) / ((dm.den * 30 : ℕ) : ℚ) := by
    conv_lhs => rw [show dm = (dm.num : ℚ) / (dm.den : ℚ) from (Rat.num_div_den dm).symm]
    rw [div_div, h2]
  have h3 : ⌊dm / 30⌋ = dm.num / ((dm.den : ℤ) * 30) := by
    rw [h1, Rat.floor_intCast_div_natCast]
    push_cast
    ring_nf
  rw [delay_bucket, h3]

/-- `firstKeys` keeps exactly the original keys. -/
theorem mem_firstKeys {κ : Type} [DecidableEq κ] (l : List κ) (a : κ) :
    a ∈ firstKeys l ↔ a ∈ l := by
  induction l with
  | nil => simp [firstKeys]
  | cons k ks ih =>
    by_cases h : a = k
    · simp [firstKeys, h]
    · simp [firstKeys, h, List.mem_filter, ih]

/-- Each member's ppid is on the ppid set of its cluster. -/
theorem mem_cluster_ppids (c : List PcbAnalysis) (p : PcbAnalysis) (hp : p ∈ c) :
    p.ppid ∈ cluster_ppids c :=
  (mem_firstKeys _ _).mpr (List.mem_map_of_mem _ hp)

/-- Invariant of the packing loop of `merge_batch_detections`: batches
keep their ppids claimed and stay pairwise disjoint, and every batch in
the result was already accepted or is one of the input clusters. -/
theorem merge_packing_inv (cs : List (List PcbAnalysis))
    (bs : List (List PcbAnalysis)) (claimed : List String)
    (hsub : ids_sub bs claimed)
    (hdisj : List.Pairwise batch_disjoint bs) :
    ids_sub (merge_packing cs (bs, claimed)).1 (merge_packing cs (bs, claimed)).2 ∧
    List.Pairwise batch_disjoint (merge_packing cs (bs, claimed)).1 ∧
    (∀ b ∈ (merge_packing cs (bs, claimed)).1, b ∈ bs ∨ b ∈ cs) := by
  induction cs generalizing bs claimed with
  | nil => exact ⟨hsub, hdisj, fun b hb => Or.inl hb⟩
  | cons c cs ih =>
    rw [merge_packing]
    split
    · next hacc =>
      have hnotcl : ∀ s ∈ cluster_ppids c, s ∉ claimed := by
        intro s hs
        have := List.all_eq_true.mp hacc s hs
        simpa using this
      have hsub' : ids_sub (bs ++ [c]) (claimed ++ cluster_ppids c) := by
        intro b hb p hp
        rcases List.mem_append.mp hb with hb1 | hb1
        · exact List.mem_append_left _ (hsub b hb1 p hp)
        · have hbc : b = c := List.mem_singleton.mp hb1
          subst hbc
          exact List.mem_append_right _ (mem_cluster_ppids b p hp)
      have hdisj' : List.Pairwise batch_disjoint (bs ++ [c]) := by
        rw [List.pairwise_append]
        refine ⟨hdisj, List.pairwise_singleton _ _, ?_⟩
        intro b hb c' hc' p1 hp1 p2 hp2 heq
        have hc2 : c' = c := List.mem_singleton.mp hc'
        subst hc2
        exact hnotcl p2.ppid (mem_cluster_ppids c' p2 hp2)
          (heq ▸ hsub b hb p1 hp1)
      obtain ⟨h1, h2, h3⟩ := ih (bs ++ [c]) (claimed ++ cluster_ppids c) hsub' hdisj'
      refine ⟨h1, h2, ?_⟩
      intro b hb
      rcases h3 b hb with hb1 | hb1
      · rcases List.mem_append.mp hb1 with hb2 | hb2
        · exact Or.inl hb2
        · exact Or.inr (List.mem_cons.mpr (Or.inl (List.mem_singleton.mp hb2)))
      · exact Or.inr (List.mem_cons.mpr (Or.inr hb1))
    · obtain ⟨h1, h2, h3⟩ := ih bs claimed hsub hdisj
      refine ⟨h1, h2, ?_⟩
      intro b hb
      rcases h3 b hb with hb1 | hb1
      · exact Or.inl hb1
      · exact Or.inr (List.mem_cons.mpr (Or.inr hb1))

/-- Invariant of the overlap-tested loops of `merge_batch_detections`:
batches keep their ppids claimed and stay pairwise disjoint, and every
batch in the result was already accepted or is a re-filtered cluster
of size at least the hard-coded 3. -/
theorem merge_filtered_inv (test : ℕ → ℕ → Bool) (cs : List (List PcbAnalysis))
    (bs : List (List PcbAnalysis)) (claimed : List String)
    (hsub : ids_sub bs claimed)
    (hdisj : List.Pairwise batch_disjoint bs) :
    ids_sub (merge_filtered test cs (bs, claimed)).1
      (merge_filtered test cs (bs, claimed)).2 ∧
    List.Pairwise batch_disjoint (merge_filtered test cs (bs, claimed)).1 ∧
    (∀ b ∈ (merge_filtered test cs (bs, claimed)).1, b ∈ bs ∨ 3 ≤ b.length) := by
  induction cs generalizing bs claimed with
  | nil => exact ⟨hsub, hdisj, fun b hb => Or.inl hb⟩
  | cons c cs ih =>
    rw [merge_filtered]
    dsimp only
    split
    · split
      · next hlen =>
        set nc := c.filter (fun p => decide (p.ppid ∉ claimed)) with hnc
        have hnc_not : ∀ p ∈ nc, p.ppid ∉ claimed := by
          intro p hp
          have := (List.mem_filter.mp hp).2
          simpa using this
        have hnc_sub : ∀ p ∈ nc, p ∈ c := fun p hp => (List.mem_filter.mp hp).1
        have hsub' : ids_sub (bs ++ [nc]) (claimed ++ cluster_ppids nc) := by
          intro b hb p hp
          rcases List.mem_append.mp hb with hb1 | hb1
          · exact List.mem_append_left _ (hsub b hb1 p hp)
          · have hbc : b = nc := List.mem_singleton.mp hb1
            subst hbc
            exact List.mem_append_right _ (mem_cluster_ppids nc p hp)
        have hdisj' : List.Pairwise batch_disjoint (bs ++ [nc]) := by
          rw [List.pairwise_append]
          refine ⟨hdisj, List.pairwise_singleton _ _, ?_⟩
          intro b hb c' hc' p1 hp1 p2 hp2 heq
          have hc2 : c' = nc := List.mem_singleton.mp hc'
          subst hc2
          exact hnc_not p2 hp2 (heq ▸ hsub b hb p1 hp1)
        obtain ⟨h1, h2, h3⟩ := ih (bs ++ [nc]) (claimed ++ cluster_ppids nc)
          hsub' hdisj'
        refine ⟨h1, h2, ?_⟩
        intro b hb
        rcases h3 b hb with hb1 | hb1
        · rcases List.mem_append.mp hb1 with hb2 | hb2
          · exact Or.inl hb2
          · have : b = nc := List.mem_singleton.mp hb2
            subst this
            exact Or.inr hlen
        · exact Or.inr hb1
      · exact ih bs claimed hsub hdisj
    · exact ih bs claimed hsub hdisj

/-- C5 (amended): in `merge_batch_detections`, packing-proximity
clusters are processed first and claim their member IDs; an
inspection-proximity cluster is accepted only under the <50% overlap
test and a delay-bucket cluster only under <30%; each accepted
non-packing cluster is re-filtered to members with unclaimed ppids and
re-checked against the *hard-coded minimum size 3* (`if
len(new_cluster) >= 3`), not against the caller's `min_batch_size` —
so every accepted batch either is one of the packing clusters or has
at least 3 members, and member unit IDs are pairwise disjoint across
all accepted batches. -/
theorem c5_merge_disjoint_and_hardcoded_three
    (P I C : List (List PcbAnalysis)) :
    List.Pairwise batch_disjoint (merge_batch_detections P I C) ∧
    (∀ b ∈ merge_batch_detections P I C, b ∈ P ∨ 3 ≤ b.length) := by
  have hempty : ids_sub ([] : List (List PcbAnalysis)) [] :=
    fun b hb => absurd hb (List.not_mem_nil b)
  obtain ⟨a1, a2, a3⟩ := merge_packing_inv P [] [] hempty List.Pairwise.nil
  obtain ⟨b1, b2, b3⟩ := merge_filtered_inv (fun o n => 2 * o < n) I
    (merge_packing P ([], [])).1 (merge_packing P ([], [])).2 a1 a2
  obtain ⟨c1, c2, c3⟩ := merge_filtered_inv (fun o n => 10 * o < 3 * n) C
    (merge_filtered (fun o n => 2 * o < n) I (merge_packing P ([], []))).1
    (merge_filtered (fun o n => 2 * o < n) I (merge_packing P ([], []))).2 b1 b2
  constructor
  · exact c2
  · intro b hb
    rcases c3 b hb with hb1 | hlen
    · rcases b3 b hb1 with hb2 | hlen
      · rcases a3 b hb2 with hb3 | hbP
        · exact absurd hb3 (List.not_mem_nil b)
        · exact Or.inl hbP
      · exact Or.inr hlen
    · exact Or.inr hlen

/-- C5 witness: a single packing cluster passes through the merge, and
`c5_merge_disjoint_and_hardcoded_three` places it among the packing
clusters (or at size ≥ 3). -/
theorem c5_merge_disjoint_and_hardcoded_three_witness :
    [pA1] ∈ merge_batch_detections [[pA1]] [] [] ∧
      ([pA1] ∈ [[pA1]] ∨ 3 ≤ [pA1].length) :=
  ⟨by decide, (c5_merge_disjoint_and_hardcoded_three [[pA1]] [] []).2 [pA1] (by decide)⟩

/-- C5 counterexample: with `min_batch_size = 4` and seven suspicious
units, the merge accepts the size-4 packing cluster [A1,A2,A3,A4] and
then the inspection cluster [A1,B1,B2,B3] (25% overlap < 50%)
re-filtered to [B1,B2,B3] — a batch of size 3, *below* the caller's
`min_batch_size = 4`: the re-check uses the hard-coded 3, refuting the
claim that re-filtered clusters are re-checked against
`min_batch_size`. -/
theorem c5_counterexample_refiltered_below_min_batch_size :
    detect_batch_hiding_patterns pcbsC5 5 4 =
      .batches [[pA1, pA2, pA3, pA4], [pB1, pB2, pB3]] := by decide

end HexApi
